import Mathlib

/-!
ESP32 image-capture firmware: server, button and vibration modules.

A shallow embedding of `server_module.cpp`, `button_module.cpp` and
`vibration_module.cpp`.  Calls into the hardware and the Arduino / ESP32
libraries are recorded as a list of effects in program order; what those
calls answer (the camera, the HTTP client, the input pin) is an explicit
argument of each embedded function.
-/

namespace ESP32

/-! ## server_module.h / server_module.cpp -/

/-- The enumeration `ActionResult` of `server_module.h`. -/
inductive ActionResult
  | ACTION_A
  | ACTION_B
  | ACTION_C
  | ACTION_D
  | ACTION_ERROR
deriving DecidableEq, Repr

/-- The two fields of the driver's `camera_fb_t` that `captureAndSend` reads:
the byte buffer `buf` and the length `len`. -/
structure camera_fb_t where
  buf : List Nat
  len : Nat
deriving DecidableEq, Repr

/-- The global `url` of `server_module.cpp`. -/
def url : String := "http://192.168.0.179:8080/upload"

/-- The library and driver calls written in `captureAndSend` and
`mapCharToAction`, one constructor per call.  The implicit constructors and
destructors of the locals `client` and `http` are library code and are not
recorded. -/
inductive Effect
  | fbGet
  | setReuse (reuse : Bool)
  | setConnectTimeout (ms : Int)
  | setTimeout (ms : Int)
  | httpBegin (target : String)
  | addHeader (name value : String)
  | post (payload : List Nat) (size : Nat)
  | fbReturn (fb : camera_fb_t)
  | getString
  | errorToString (code : Int)
  | serialPrintf (fmt : String)
  | httpEnd
  | clientStop
deriving DecidableEq, Repr

/-- What the outside world answers during one run of `captureAndSend`:
the frame `esp_camera_fb_get` hands out (`none` is the null pointer),
whether `http.begin` succeeds, the value `http.POST` returns, and the
characters `http.getString` yields when it is called. -/
structure World where
  fb : Option camera_fb_t
  beginOk : Bool
  code : Int
  responseBody : List Char
deriving DecidableEq, Repr

/-- The C library predicate `isspace` in the default locale: space, `\t`,
`\n`, `\v`, `\f`, `\r`. -/
def isspace (c : Char) : Bool :=
  c.toNat == 32 || (9 ≤ c.toNat && c.toNat ≤ 13)

/-- The method `String::trim` of the Arduino core on the characters of a
`String`: `begin` advances over leading whitespace, `end` retreats over
trailing whitespace without passing `begin`, and what lies between is kept. -/
def trim (s : List Char) : List Char :=
  ((s.dropWhile isspace).reverse.dropWhile isspace).reverse

/-- The indexing operator of the Arduino core `String`: the character at
`index`, and the character 0 when `index` is not below the length. -/
def charAt (s : List Char) (index : Nat) : Char :=
  s.getD index (Char.ofNat 0)

/-- The helper `mapCharToAction`: the result and the log line of the
`default` branch. -/
def mapCharToAction (c : Char) : ActionResult × List Effect :=
  match c with
  | 'A' => (ActionResult.ACTION_A, [])
  | 'B' => (ActionResult.ACTION_B, [])
  | 'C' => (ActionResult.ACTION_C, [])
  | 'D' => (ActionResult.ACTION_D, [])
  | _ => (ActionResult.ACTION_ERROR,
          [Effect.serialPrintf "Invalid action char from server: '%c'\n"])

/-- The function `captureAndSend`: its return value and the calls it makes,
in program order. -/
def captureAndSend (w : World) : ActionResult × List Effect :=
  match w.fb with
  | none => (ActionResult.ACTION_ERROR, [Effect.fbGet])
  | some fb =>
    let t0 : List Effect :=
      [Effect.fbGet, Effect.setReuse false, Effect.setConnectTimeout 15000,
       Effect.setTimeout 60000, Effect.httpBegin url]
    if !w.beginOk then
      (ActionResult.ACTION_ERROR, t0 ++ [Effect.fbReturn fb])
    else
      let t1 : List Effect :=
        t0 ++ [Effect.addHeader "Content-Type" "image/jpeg",
               Effect.addHeader "Connection" "close",
               Effect.post fb.buf fb.len,
               Effect.fbReturn fb]
      let code : Int := w.code
      let read : List Char × List Effect :=
        if code > 0 then (w.responseBody, [Effect.getString]) else ([], [])
      let t2 : List Effect :=
        t1 ++ read.2 ++ [Effect.errorToString code, Effect.serialPrintf "HTTP %d (%s) body='%s'\n",
                         Effect.httpEnd, Effect.clientStop]
      if code ≠ 200 then (ActionResult.ACTION_ERROR, t2)
      else
        let body : List Char := trim read.1
        if body.length ≠ 1 then (ActionResult.ACTION_ERROR, t2)
        else
          let r := mapCharToAction (charAt body 0)
          (r.1, t2 ++ r.2)

/-- The decoder as the specification words it: a status other than 200 is an
error; otherwise the body is stripped of leading and trailing whitespace, a
stripped body whose length is not 1 is an error, and the single character is
looked up in the table A, B, C, D with every other character an error. -/
def decodeSpec (status : Int) (body : List Char) : ActionResult :=
  if status ≠ 200 then ActionResult.ACTION_ERROR
  else
    let t := (body.dropWhile isspace).rdropWhile isspace
    if t.length ≠ 1 then ActionResult.ACTION_ERROR
    else
      match t.head? with
      | some 'A' => ActionResult.ACTION_A
      | some 'B' => ActionResult.ACTION_B
      | some 'C' => ActionResult.ACTION_C
      | some 'D' => ActionResult.ACTION_D
      | _ => ActionResult.ACTION_ERROR

/-- Recognises the call `http.POST`. -/
def Effect.isPost : Effect → Bool
  | Effect.post _ _ => true
  | _ => false

/-- Recognises the call `esp_camera_fb_return`. -/
def Effect.isFbReturn : Effect → Bool
  | Effect.fbReturn _ => true
  | _ => false

/-- Recognises the call `http.addHeader`. -/
def Effect.isAddHeader : Effect → Bool
  | Effect.addHeader _ _ => true
  | _ => false

/-- Recognises the call `http.begin`. -/
def Effect.isHttpBegin : Effect → Bool
  | Effect.httpBegin _ => true
  | _ => false

/-- Every call satisfying `p` stands at a strictly smaller position of the
trace than every call satisfying `q`. -/
def allBefore (p q : Effect → Bool) (t : List Effect) : Prop :=
  ∀ i j : Fin t.length, p (t.get i) = true → q (t.get j) = true → i < j

instance (p q : Effect → Bool) (t : List Effect) : Decidable (allBefore p q t) := by
  unfold allBefore; infer_instance

/-- Recognises the call `http.getString`. -/
def Effect.isGetString : Effect → Bool
  | Effect.getString => true
  | _ => false

/-- Recognises the two teardown calls `http.end` and `client.stop`. -/
def Effect.isTeardown : Effect → Bool
  | Effect.httpEnd => true
  | Effect.clientStop => true
  | _ => false

/-! ## Arduino core constants -/

/-- The Arduino level constant `HIGH` (0x1). -/
def HIGH : Int := 1

/-- The Arduino level constant `LOW` (0x0). -/
def LOW : Int := 0

/-! ## button_module.cpp -/

/-- The pin number `BUTTON_PIN`. -/
def BUTTON_PIN : Nat := 20

/-- The function `buttonPressed`, given the value `s` that
`digitalRead(BUTTON_PIN)` returns and the current value of the static
`lastButtonState`: the return value, the new `lastButtonState`, and the
milliseconds spent in `delay`. -/
def buttonPressed (s : Int) (lastButtonState : Int) : Bool × Int × Nat :=
  if s = LOW ∧ lastButtonState = HIGH then
    (true, s, 50)
  else
    (false, s, 0)

/-- Successive calls of `buttonPressed`, one per sampled value, threading
`lastButtonState` from call to call: the list of return values. -/
def buttonPressedCalls : List Int → Int → List Bool
  | [], _ => []
  | s :: rest, lastButtonState =>
    (buttonPressed s lastButtonState).1 ::
      buttonPressedCalls rest (buttonPressed s lastButtonState).2.1

/-- The button module in time: the clock in milliseconds and the static
`lastButtonState`. -/
structure ButtonState where
  clock : Nat
  lastButtonState : Int
deriving DecidableEq, Repr

/-- One call of `buttonPressed` at the time `st.clock`, with `signal t` the
value `digitalRead(BUTTON_PIN)` returns at time `t`: the return value and the
state after the call, the clock advanced by the time spent in `delay`. -/
def buttonPressedAt (signal : Nat → Int) (st : ButtonState) : Bool × ButtonState :=
  let r := buttonPressed (signal st.clock) st.lastButtonState
  (r.1, ⟨st.clock + r.2.2, r.2.1⟩)

/-- A schedule of calls of `buttonPressed`: before each call the caller lets
`gap` milliseconds pass.  The result lists, for every call, the time at which
it sampled the pin and what it returned. -/
def pollButton (signal : Nat → Int) : List Nat → ButtonState → List (Nat × Bool)
  | [], _ => []
  | gap :: gaps, st =>
    (st.clock + gap, (buttonPressedAt signal ⟨st.clock + gap, st.lastButtonState⟩).1) ::
      pollButton signal gaps (buttonPressedAt signal ⟨st.clock + gap, st.lastButtonState⟩).2

/-- The number of calls that sampled the pin at a time in `[t0, t1)` and
returned `true`. -/
def pressEvents (calls : List (Nat × Bool)) (t0 t1 : Nat) : Nat :=
  calls.countP (fun c => decide (t0 ≤ c.1) && decide (c.1 < t1) && c.2)

/-- The state of the button module at boot. -/
def bootState : ButtonState := ⟨0, HIGH⟩

/-! ## vibration_module.cpp -/

/-- The pin number `BUZZER_PIN`. -/
def BUZZER_PIN : Nat := 14

/-- The calls `vibratePulses` makes. -/
inductive PinEffect
  | digitalWrite (pin : Nat) (level : Int)
  | delay (ms : Nat)
deriving DecidableEq, Repr

/-- The `for` loop of `vibratePulses` from the counter value `i` on.  The
counter never exceeds `count`, so for a `count` in the range of `int` the
increment does not overflow. -/
def vibrateLoop (count : Int) (i : Int) : List PinEffect :=
  if i < count then
    [PinEffect.digitalWrite BUZZER_PIN HIGH, PinEffect.delay 200,
     PinEffect.digitalWrite BUZZER_PIN LOW, PinEffect.delay 200] ++
      vibrateLoop count (i + 1)
  else []
termination_by (count - i).toNat
decreasing_by omega

/-- The function `vibratePulses`. -/
def vibratePulses (count : Int) : List PinEffect :=
  vibrateLoop count 0

/-- The total time spent in `delay`, in milliseconds. -/
def totalDelay : List PinEffect → Nat
  | [] => 0
  | PinEffect.delay ms :: rest => ms + totalDelay rest
  | PinEffect.digitalWrite _ _ :: rest => totalDelay rest

/-- The levels written, in order. -/
def levelsWritten : List PinEffect → List Int
  | [] => []
  | PinEffect.digitalWrite _ level :: rest => level :: levelsWritten rest
  | PinEffect.delay _ :: rest => levelsWritten rest

/-- One on/off cycle of the actuator. -/
def pulseCycle : List PinEffect :=
  [PinEffect.digitalWrite BUZZER_PIN HIGH, PinEffect.delay 200,
   PinEffect.digitalWrite BUZZER_PIN LOW, PinEffect.delay 200]

/-! ## Example input signals -/

/-- A signal with one clean press: `LOW` from 100 ms to 300 ms. -/
def onePressSignal (t : Nat) : Int :=
  if 100 ≤ t ∧ t < 300 then LOW else HIGH

/-- A signal with two clean presses: `LOW` from 100 ms to 300 ms and from
1000 ms to 1300 ms. -/
def twoPressSignal (t : Nat) : Int :=
  if (100 ≤ t ∧ t < 300) ∨ (1000 ≤ t ∧ t < 1300) then LOW else HIGH

/-- A signal with one bouncing press: `HIGH` until 100 ms, alternating every
millisecond until 130 ms, `LOW` until 500 ms, `HIGH` afterwards. -/
def bounceSignal (t : Nat) : Int :=
  if t < 100 then HIGH
  else if t < 130 then (if t % 2 = 0 then LOW else HIGH)
  else if t < 500 then LOW
  else HIGH

/-! ### Helper lemmas -/

theorem buttonPressedCalls_length (samples : List Int) :
    ∀ last, (buttonPressedCalls samples last).length = samples.length := by
  induction samples with
  | nil => intro _; rfl
  | cons s rest ih => intro last; simp [buttonPressedCalls, ih]

theorem buttonPressedCalls_getD (samples : List Int) :
    ∀ (last : Int) (k : Nat), k < samples.length →
      ((buttonPressedCalls samples last).getD k false = true ↔
        samples.getD k HIGH = LOW ∧
          (if k = 0 then last else samples.getD (k - 1) HIGH) = HIGH) := by
  induction samples with
  | nil => intro _ k hk; simp at hk
  | cons s rest ih =>
    intro last k hk
    cases k with
    | zero =>
      simp only [buttonPressedCalls, buttonPressed, List.getD_cons_zero, if_true]
      split <;> simp_all
    | succ k =>
      have hk2 : k < rest.length := by simpa using hk
      have hnew : (buttonPressed s last).2.1 = s := by
        unfold buttonPressed; split <;> rfl
      simp only [buttonPressedCalls, List.getD_cons_succ, hnew, Nat.succ_ne_zero, if_false,
        Nat.add_sub_cancel]
      rw [ih s k hk2]
      cases k with
      | zero => simp
      | succ k => simp


theorem allBefore_of_pairwise (p q : Effect → Bool) (t : List Effect)
    (hpw : t.Pairwise (fun x y => ¬ (q x = true ∧ p y = true)))
    (hdisj : ∀ x ∈ t, ¬ (p x = true ∧ q x = true)) : allBefore p q t := by
  intro i j hp hq
  rcases lt_trichotomy i j with h | h | h
  · exact h
  · subst h
    exact absurd ⟨hp, hq⟩ (hdisj _ (List.get_mem t i.1 i.2))
  · exact absurd ⟨hq, hp⟩ (List.pairwise_iff_get.mp hpw j i h)

theorem trim_eq_rdropWhile (s : List Char) :
    trim s = (s.dropWhile isspace).rdropWhile isspace := rfl

theorem mapCharToAction_fst (c : Char) :
    (mapCharToAction c).1 =
      match some c with
      | some 'A' => ActionResult.ACTION_A
      | some 'B' => ActionResult.ACTION_B
      | some 'C' => ActionResult.ACTION_C
      | some 'D' => ActionResult.ACTION_D
      | _ => ActionResult.ACTION_ERROR := by
  unfold mapCharToAction
  split <;> simp_all

/-- The return value of `captureAndSend` once capture and session start have
succeeded, by the shape of the trimmed body. -/
theorem captureAndSend_result (fb : camera_fb_t) (code : Int) (body : List Char) :
    (captureAndSend ⟨some fb, true, code, body⟩).1 =
      if code = 200 then
        match trim body with
        | [c] => (mapCharToAction c).1
        | _ => ActionResult.ACTION_ERROR
      else ActionResult.ACTION_ERROR := by
  unfold captureAndSend
  by_cases hc : code = 200
  · subst hc
    simp only [gt_iff_lt, Int.reduceLT, ite_true]
    generalize trim body = t
    rcases t with _ | ⟨c, _ | ⟨d, l⟩⟩ <;> simp [charAt]
  · simp [hc]

/-- The calls of `captureAndSend` once capture and session start have
succeeded: a fixed prefix up to the release of the frame, the body read when
the status is positive, the log line, the two teardown calls, and at most the
log line of `mapCharToAction`. -/
theorem captureAndSend_trace (fb : camera_fb_t) (code : Int) (body : List Char) :
    ∃ log : List Effect,
      (log = [] ∨ log = [Effect.serialPrintf "Invalid action char from server: '%c'\n"]) ∧
      (captureAndSend ⟨some fb, true, code, body⟩).2 =
        [Effect.fbGet, Effect.setReuse false, Effect.setConnectTimeout 15000,
         Effect.setTimeout 60000, Effect.httpBegin url,
         Effect.addHeader "Content-Type" "image/jpeg",
         Effect.addHeader "Connection" "close",
         Effect.post fb.buf fb.len, Effect.fbReturn fb] ++
        (if code > 0 then [Effect.getString] else []) ++
        [Effect.errorToString code, Effect.serialPrintf "HTTP %d (%s) body='%s'\n",
         Effect.httpEnd, Effect.clientStop] ++ log := by
  unfold captureAndSend
  by_cases hc : code = 200
  · subst hc
    simp only [gt_iff_lt, Int.reduceLT, ite_true]
    generalize trim body = t
    rcases t with _ | ⟨c, _ | ⟨d, l⟩⟩
    · exact ⟨[], Or.inl rfl, by simp⟩
    · refine ⟨(mapCharToAction (charAt [c] 0)).2, ?_, by simp⟩
      unfold mapCharToAction
      split <;> simp
    · exact ⟨[], Or.inl rfl, by simp⟩
  · refine ⟨[], Or.inl rfl, ?_⟩
    by_cases hpos : 0 < code <;> simp [hc, hpos]

/-- The run of `captureAndSend` when `http.begin` fails. -/
theorem captureAndSend_begin_failed (fb : camera_fb_t) (code : Int) (body : List Char) :
    captureAndSend ⟨some fb, false, code, body⟩ =
      (ActionResult.ACTION_ERROR,
        [Effect.fbGet, Effect.setReuse false, Effect.setConnectTimeout 15000,
         Effect.setTimeout 60000, Effect.httpBegin url, Effect.fbReturn fb]) := by
  simp [captureAndSend]

/-- The run of `captureAndSend` when the capture fails. -/
theorem captureAndSend_capture_failed (ok : Bool) (code : Int) (body : List Char) :
    captureAndSend ⟨none, ok, code, body⟩ = (ActionResult.ACTION_ERROR, [Effect.fbGet]) := by
  simp [captureAndSend]

theorem LOW_ne_HIGH : LOW ≠ HIGH := by decide

theorem buttonPressedAt_edge (signal : Nat → Int) (t : Nat) (last : Int)
    (h : signal t = LOW ∧ last = HIGH) :
    buttonPressedAt signal ⟨t, last⟩ = (true, ⟨t + 50, LOW⟩) := by
  simp [buttonPressedAt, buttonPressed, h.1, h.2]

theorem buttonPressedAt_no_edge (signal : Nat → Int) (t : Nat) (last : Int)
    (h : ¬ (signal t = LOW ∧ last = HIGH)) :
    buttonPressedAt signal ⟨t, last⟩ = (false, ⟨t, signal t⟩) := by
  simp [buttonPressedAt, buttonPressed, h]

theorem pressEvents_nil (t0 t1 : Nat) : pressEvents [] t0 t1 = 0 := rfl

theorem pressEvents_cons (c : Nat × Bool) (cs : List (Nat × Bool)) (t0 t1 : Nat) :
    pressEvents (c :: cs) t0 t1 =
      pressEvents cs t0 t1 + (if t0 ≤ c.1 ∧ c.1 < t1 ∧ c.2 = true then 1 else 0) := by
  simp [pressEvents, List.countP_cons, and_assoc]

/-- Every call of a schedule samples the pin no earlier than the clock at
which the schedule starts. -/
theorem pollButton_clock_le (signal : Nat → Int) (gaps : List Nat) :
    ∀ st : ButtonState, ∀ c ∈ pollButton signal gaps st, st.clock ≤ c.1 := by
  induction gaps with
  | nil => intro st c hc; simp [pollButton] at hc
  | cons gap gaps ih =>
    intro st c hc
    simp only [pollButton, List.mem_cons] at hc
    rcases hc with rfl | hc
    · simp
    · have := ih _ c hc
      by_cases he : signal (st.clock + gap) = LOW ∧ st.lastButtonState = HIGH
      · rw [buttonPressedAt_edge signal _ _ he] at this
        simp only at this
        omega
      · rw [buttonPressedAt_no_edge signal _ _ he] at this
        simp only at this
        omega

/-- Once `LOW` is remembered and the bounce is over, or once the press is
over, no later call reports this press. -/
theorem pressEvents_settled (signal : Nat → Int) (t0 b t1 : Nat)
    (hlow : ∀ t, t0 + b ≤ t → t < t1 → signal t = LOW) (gaps : List Nat) :
    ∀ st : ButtonState,
      ((st.lastButtonState = LOW ∧ t0 + b ≤ st.clock) ∨ t1 ≤ st.clock) →
      pressEvents (pollButton signal gaps st) t0 t1 = 0 := by
  induction gaps with
  | nil => intro st _; rfl
  | cons gap gaps ih =>
    intro st hst
    simp only [pollButton, pressEvents_cons]
    by_cases hend : t1 ≤ st.clock + gap
    · have hnot : ¬ (t0 ≤ st.clock + gap ∧ st.clock + gap < t1 ∧
          (buttonPressedAt signal ⟨st.clock + gap, st.lastButtonState⟩).1 = true) := by
        rintro ⟨_, h, _⟩; omega
      rw [if_neg hnot, Nat.add_zero]
      apply ih
      right
      by_cases he : signal (st.clock + gap) = LOW ∧ st.lastButtonState = HIGH
      · rw [buttonPressedAt_edge signal _ _ he]; simp only; omega
      · rw [buttonPressedAt_no_edge signal _ _ he]; exact hend
    · rcases hst with ⟨hl, hc⟩ | hc
      · have he : ¬ (signal (st.clock + gap) = LOW ∧ st.lastButtonState = HIGH) := by
          rintro ⟨_, h⟩
          rw [hl] at h
          exact LOW_ne_HIGH h
        rw [buttonPressedAt_no_edge signal _ _ he]
        simp only [Bool.false_eq_true, and_false, if_false, Nat.add_zero]
        apply ih
        left
        exact ⟨hlow _ (by omega) (by omega), by simp only; omega⟩
      · omega

/-- Whatever the state and the signal before the bounce is over, at most one
call reports the press. -/
theorem pressEvents_le_one (signal : Nat → Int) (t0 b t1 : Nat) (hb : b ≤ 50)
    (hlow : ∀ t, t0 + b ≤ t → t < t1 → signal t = LOW) (gaps : List Nat) :
    ∀ st : ButtonState, pressEvents (pollButton signal gaps st) t0 t1 ≤ 1 := by
  induction gaps with
  | nil => intro st; simp [pollButton, pressEvents_nil]
  | cons gap gaps ih =>
    intro st
    simp only [pollButton, pressEvents_cons]
    by_cases he : signal (st.clock + gap) = LOW ∧ st.lastButtonState = HIGH
    · rw [buttonPressedAt_edge signal _ _ he]
      by_cases hin : t0 ≤ st.clock + gap
      · rw [pressEvents_settled signal t0 b t1 hlow gaps _
          (Or.inl ⟨rfl, by simp only; omega⟩)]
        split <;> omega
      · have hnot : ¬ (t0 ≤ st.clock + gap ∧ st.clock + gap < t1 ∧
            (true, (⟨st.clock + gap + 50, LOW⟩ : ButtonState)).1 = true) := by
          rintro ⟨h, _, _⟩; exact hin h
        rw [if_neg hnot, Nat.add_zero]
        exact ih _
    · rw [buttonPressedAt_no_edge signal _ _ he]
      simp only [Bool.false_eq_true, and_false, if_false, Nat.add_zero]
      exact ih _

/-- From a state that remembers `HIGH`, with the signal `HIGH` until the press
begins and a level during the bounce, a schedule with a call that samples the
pin `LOW` during the press reports the press exactly once. -/
theorem pressEvents_eq_one (signal : Nat → Int) (t0 b t1 : Nat) (hb : b ≤ 50)
    (hlow : ∀ t, t0 + b ≤ t → t < t1 → signal t = LOW)
    (hlev : ∀ t, t0 ≤ t → t < t0 + b → signal t = HIGH ∨ signal t = LOW)
    (gaps : List Nat) :
    ∀ st : ButtonState, st.lastButtonState = HIGH →
      (∀ t, st.clock ≤ t → t < t0 → signal t = HIGH) →
      (∃ c ∈ pollButton signal gaps st, t0 ≤ c.1 ∧ c.1 < t1 ∧ signal c.1 = LOW) →
      pressEvents (pollButton signal gaps st) t0 t1 = 1 := by
  induction gaps with
  | nil => intro st _ _ hex; simp [pollButton] at hex
  | cons gap gaps ih =>
    intro st hlast hpre hex
    obtain ⟨c, hc, hc0, hc1, hcL⟩ := hex
    simp only [pollButton, List.mem_cons] at hc
    simp only [pollButton, pressEvents_cons]
    have hcases : signal (st.clock + gap) = LOW ∨
        (signal (st.clock + gap) = HIGH ∧ st.clock + gap < t0 + b) ∨
        t1 ≤ st.clock + gap := by
      by_cases h1 : t1 ≤ st.clock + gap
      · exact Or.inr (Or.inr h1)
      · by_cases h2 : t0 + b ≤ st.clock + gap
        · exact Or.inl (hlow _ h2 (by omega))
        · by_cases h3 : t0 ≤ st.clock + gap
          · rcases hlev _ h3 (by omega) with h | h
            · exact Or.inr (Or.inl ⟨h, by omega⟩)
            · exact Or.inl h
          · exact Or.inr (Or.inl ⟨hpre _ (by omega) (by omega), by omega⟩)
    rcases hcases with hL | ⟨hH, hearly⟩ | hlate
    · -- the first `LOW` sample: the edge is reported and the rest is settled
      have hin : t0 ≤ st.clock + gap := by
        by_contra hcon
        have := hpre (st.clock + gap) (by omega) (by omega)
        rw [hL] at this
        exact LOW_ne_HIGH this
      by_cases h1 : t1 ≤ st.clock + gap
      · exfalso
        rcases hc with rfl | hc
        · simp only at hc1; omega
        · have := pollButton_clock_le signal gaps _ c hc
          rw [buttonPressedAt_edge signal _ _ ⟨hL, hlast⟩] at this
          simp only at this
          omega
      · rw [buttonPressedAt_edge signal _ _ ⟨hL, hlast⟩]
        rw [pressEvents_settled signal t0 b t1 hlow gaps _
          (Or.inl ⟨rfl, by simp only; omega⟩)]
        have hyes : t0 ≤ st.clock + gap ∧ st.clock + gap < t1 ∧
            (true, (⟨st.clock + gap + 50, LOW⟩ : ButtonState)).1 = true :=
          ⟨hin, by omega, rfl⟩
        rw [if_pos hyes]
    · -- a `HIGH` sample before the bounce is over: nothing reported yet
      have he : ¬ (signal (st.clock + gap) = LOW ∧ st.lastButtonState = HIGH) := by
        rintro ⟨h, _⟩
        rw [hH] at h
        exact LOW_ne_HIGH h.symm
      rw [buttonPressedAt_no_edge signal _ _ he] at hc ⊢
      simp only [Bool.false_eq_true, and_false, if_false, Nat.add_zero]
      apply ih
      · exact hH
      · intro t h1 h2
        exact hpre t (by simp only at h1; omega) h2
      · rcases hc with rfl | hc
        · simp only at hcL
          rw [hH] at hcL
          exact absurd hcL.symm LOW_ne_HIGH
        · exact ⟨c, hc, hc0, hc1, hcL⟩
    · -- the schedule is already past the press: no call samples it
      exfalso
      rcases hc with rfl | hc
      · simp only at hc1; omega
      · have := pollButton_clock_le signal gaps _ c hc
        by_cases he : signal (st.clock + gap) = LOW ∧ st.lastButtonState = HIGH
        · rw [buttonPressedAt_edge signal _ _ he] at this
          simp only at this
          omega
        · rw [buttonPressedAt_no_edge signal _ _ he] at this
          simp only at this
          omega

theorem vibrateLoop_eq_replicate (count : Int) (n : Nat) :
    ∀ i : Int, (count - i).toNat = n →
      vibrateLoop count i = (List.replicate n pulseCycle).flatten := by
  induction n with
  | zero =>
    intro i hi
    rw [vibrateLoop, if_neg (by omega)]
    rfl
  | succ n ih =>
    intro i hi
    rw [vibrateLoop, if_pos (by omega), ih (i + 1) (by omega)]
    simp [List.replicate_succ, pulseCycle]

theorem totalDelay_append (xs ys : List PinEffect) :
    totalDelay (xs ++ ys) = totalDelay xs + totalDelay ys := by
  induction xs with
  | nil => simp [totalDelay]
  | cons x xs ih =>
    cases x with
    | digitalWrite pin level => simp [totalDelay, ih]
    | delay ms => simp [totalDelay, ih, Nat.add_assoc]

theorem totalDelay_cycles (n : Nat) :
    totalDelay (List.replicate n pulseCycle).flatten = 400 * n := by
  induction n with
  | zero => rfl
  | succ n ih =>
    rw [List.replicate_succ, List.flatten_cons, totalDelay_append, ih]
    simp only [pulseCycle, totalDelay]
    omega

theorem levelsWritten_append (xs ys : List PinEffect) :
    levelsWritten (xs ++ ys) = levelsWritten xs ++ levelsWritten ys := by
  induction xs with
  | nil => simp [levelsWritten]
  | cons x xs ih =>
    cases x with
    | digitalWrite pin level => simp [levelsWritten, ih]
    | delay ms => simp [levelsWritten, ih]

theorem levelsWritten_cycles_getLast (n : Nat) :
    (levelsWritten (List.replicate (n + 1) pulseCycle).flatten).getLast? = some LOW := by
  induction n with
  | zero => rfl
  | succ n ih =>
    rw [List.replicate_succ, List.flatten_cons, levelsWritten_append, List.getLast?_append, ih]
    rfl

/-! ### Claims about `captureAndSend` -/

/-- C1: after a successful capture and session start, for every HTTP status
and every response body the result of `captureAndSend` is the result of the
reference decoder `decodeSpec`, and that result is one of the five
`ActionResult` values. -/
theorem captureAndSend_eq_decodeSpec (fb : camera_fb_t) (code : Int) (body : List Char) :
    (captureAndSend ⟨some fb, true, code, body⟩).1 = decodeSpec code body ∧
    decodeSpec code body ∈
      [ActionResult.ACTION_A, ActionResult.ACTION_B, ActionResult.ACTION_C,
       ActionResult.ACTION_D, ActionResult.ACTION_ERROR] := by
  refine ⟨?_, ?_⟩
  · unfold captureAndSend decodeSpec
    by_cases hc : code = 200
    · subst hc
      simp only [Bool.not_true, Bool.false_eq_true, if_false, ne_eq, not_true_eq_false,
        show (200 : Int) > 0 by decide, if_true, trim_eq_rdropWhile]
      generalize (body.dropWhile isspace).rdropWhile isspace = t
      rcases t with _ | ⟨c, _ | ⟨d, l⟩⟩ <;> simp [charAt, mapCharToAction_fst]
    · simp [hc]
  · cases decodeSpec code body <;> simp

/-- C2 (as stated, refuted): with status 200 the bodies "A\n" and " B",
whose length is 2, are not answered with `ACTION_ERROR`: the body is trimmed
first, so they yield `ACTION_A` and `ACTION_B`. -/
theorem captureAndSend_untrimmed_body_accepted :
    (['A', '\n'] : List Char).length ≠ 1 ∧
    (captureAndSend ⟨some ⟨[255, 216], 2⟩, true, 200, ['A', '\n']⟩).1
      = ActionResult.ACTION_A ∧
    ([' ', 'B'] : List Char).length ≠ 1 ∧
    (captureAndSend ⟨some ⟨[255, 216], 2⟩, true, 200, [' ', 'B']⟩).1
      = ActionResult.ACTION_B := by
  decide

/-- C2 (amended): after a successful capture and session start, if the
status is 200 and the body with leading and trailing whitespace removed is
exactly one character from A, B, C, D then `captureAndSend` returns the
corresponding action code, and for every other combination of status and
body it returns `ACTION_ERROR`. -/
theorem captureAndSend_trimmed_partition (fb : camera_fb_t) (code : Int) (body : List Char) :
    (code = 200 ∧ trim body = ['A'] →
      (captureAndSend ⟨some fb, true, code, body⟩).1 = ActionResult.ACTION_A) ∧
    (code = 200 ∧ trim body = ['B'] →
      (captureAndSend ⟨some fb, true, code, body⟩).1 = ActionResult.ACTION_B) ∧
    (code = 200 ∧ trim body = ['C'] →
      (captureAndSend ⟨some fb, true, code, body⟩).1 = ActionResult.ACTION_C) ∧
    (code = 200 ∧ trim body = ['D'] →
      (captureAndSend ⟨some fb, true, code, body⟩).1 = ActionResult.ACTION_D) ∧
    (¬ (code = 200 ∧ (trim body = ['A'] ∨ trim body = ['B'] ∨ trim body = ['C'] ∨
          trim body = ['D'])) →
      (captureAndSend ⟨some fb, true, code, body⟩).1 = ActionResult.ACTION_ERROR) := by
  rw [captureAndSend_result]
  by_cases hc : code = 200
  · subst hc
    generalize trim body = t
    rcases t with _ | ⟨c, _ | ⟨d, l⟩⟩
    · simp
    · simp only [mapCharToAction]
      split <;> simp_all
    · simp
  · simp [hc]

/-- Witness for C2 (amended): the body " B\n" with status 200 trims to "B" and
yields `ACTION_B`. -/
theorem captureAndSend_trimmed_partition_witness :
    (captureAndSend ⟨some ⟨[255, 216], 2⟩, true, 200, [' ', 'B', '\n']⟩).1
      = ActionResult.ACTION_B :=
  (captureAndSend_trimmed_partition ⟨[255, 216], 2⟩ 200 [' ', 'B', '\n']).2.1
    ⟨rfl, by decide⟩

/-- C3: in every run of `captureAndSend` the frame is handed back to the
driver exactly once when `esp_camera_fb_get` gave a frame and never when it
gave none, and what is handed back is the frame acquired. -/
theorem captureAndSend_frame_released_once (w : World) :
    (captureAndSend w).2.countP Effect.isFbReturn = (if w.fb.isSome then 1 else 0) ∧
    (captureAndSend w).2.count Effect.fbGet = 1 ∧
    ∀ f, Effect.fbReturn f ∈ (captureAndSend w).2 → w.fb = some f := by
  obtain ⟨fb, ok, code, body⟩ := w
  cases fb with
  | none => simp [captureAndSend_capture_failed, Effect.isFbReturn]
  | some fb =>
    cases ok with
    | false => simp [captureAndSend_begin_failed, Effect.isFbReturn]
    | true =>
      obtain ⟨log, hlog, ht⟩ := captureAndSend_trace fb code body
      rw [ht]
      by_cases hpos : code > 0 <;> rcases hlog with rfl | rfl <;>
        simp [hpos, Effect.isFbReturn, List.countP_cons]

/-- C4 (as stated, refuted): when the capture fails, and when `http.begin`
fails, `captureAndSend` returns without calling `http.end` or `client.stop`:
the teardown is performed zero times, not once. -/
theorem captureAndSend_early_exit_no_teardown :
    (captureAndSend ⟨none, true, 200, ['A']⟩).2.count Effect.httpEnd = 0 ∧
    (captureAndSend ⟨none, true, 200, ['A']⟩).2.count Effect.clientStop = 0 ∧
    (captureAndSend ⟨some ⟨[255, 216], 2⟩, false, 200, ['A']⟩).2.count Effect.httpEnd = 0 ∧
    (captureAndSend ⟨some ⟨[255, 216], 2⟩, false, 200, ['A']⟩).2.count Effect.clientStop = 0 := by
  decide

/-- C4 (amended): in every run of `captureAndSend` in which the capture and
the session start both succeed, whichever branch is then taken (transport
failure, non-200 status, malformed body or success), `http.end` is called
exactly once, `client.stop` is called exactly once, and `client.stop` directly
follows `http.end`. -/
theorem captureAndSend_teardown_once (w : World)
    (hfb : w.fb.isSome = true) (hbegin : w.beginOk = true) :
    (captureAndSend w).2.count Effect.httpEnd = 1 ∧
    (captureAndSend w).2.count Effect.clientStop = 1 ∧
    ∃ before after,
      (captureAndSend w).2 = before ++ [Effect.httpEnd, Effect.clientStop] ++ after := by
  obtain ⟨fb, ok, code, body⟩ := w
  cases fb with
  | none => simp at hfb
  | some fb =>
    cases ok with
    | false => simp at hbegin
    | true =>
      obtain ⟨log, hlog, ht⟩ := captureAndSend_trace fb code body
      refine ⟨?_, ?_, ?_⟩
      · rw [ht]
        by_cases hpos : code > 0 <;> rcases hlog with rfl | rfl <;>
          simp [hpos, List.count_cons]
      · rw [ht]
        by_cases hpos : code > 0 <;> rcases hlog with rfl | rfl <;>
          simp [hpos, List.count_cons]
      · refine ⟨[Effect.fbGet, Effect.setReuse false, Effect.setConnectTimeout 15000,
            Effect.setTimeout 60000, Effect.httpBegin url,
            Effect.addHeader "Content-Type" "image/jpeg",
            Effect.addHeader "Connection" "close",
            Effect.post fb.buf fb.len, Effect.fbReturn fb] ++
            (if code > 0 then [Effect.getString] else []) ++
            [Effect.errorToString code, Effect.serialPrintf "HTTP %d (%s) body='%s'\n"],
          log, ?_⟩
        rw [ht]
        simp

/-- Witness for C4 (amended): a run with a frame, a session and a transport
failure (status -1) calls `http.end` once and `client.stop` once. -/
theorem captureAndSend_teardown_once_witness :
    (captureAndSend ⟨some ⟨[255, 216], 2⟩, true, -1, []⟩).2.count Effect.httpEnd = 1 ∧
    (captureAndSend ⟨some ⟨[255, 216], 2⟩, true, -1, []⟩).2.count Effect.clientStop = 1 :=
  ⟨(captureAndSend_teardown_once ⟨some ⟨[255, 216], 2⟩, true, -1, []⟩ rfl rfl).1,
   (captureAndSend_teardown_once ⟨some ⟨[255, 216], 2⟩, true, -1, []⟩ rfl rfl).2.1⟩

/-- C5: in every run of `captureAndSend` that issues a POST, the frame is
released, every release stands after every POST, before every body read
(`http.getString`) and before both teardown calls (`http.end`,
`client.stop`). -/
theorem captureAndSend_release_order (w : World)
    (hpost : ∃ e ∈ (captureAndSend w).2, e.isPost = true) :
    (∃ e ∈ (captureAndSend w).2, e.isFbReturn = true) ∧
    allBefore Effect.isPost Effect.isFbReturn (captureAndSend w).2 ∧
    allBefore Effect.isFbReturn Effect.isGetString (captureAndSend w).2 ∧
    allBefore Effect.isFbReturn Effect.isTeardown (captureAndSend w).2 ∧
    Effect.httpEnd ∈ (captureAndSend w).2 ∧ Effect.clientStop ∈ (captureAndSend w).2 := by
  obtain ⟨fb, ok, code, body⟩ := w
  cases fb with
  | none => simp [captureAndSend_capture_failed, Effect.isPost] at hpost
  | some fb =>
    cases ok with
    | false => simp [captureAndSend_begin_failed, Effect.isPost] at hpost
    | true =>
      obtain ⟨log, hlog, ht⟩ := captureAndSend_trace fb code body
      rw [ht]
      refine ⟨?_, ?_, ?_, ?_, ?_, ?_⟩
      · exact ⟨Effect.fbReturn fb, by simp, rfl⟩
      · apply allBefore_of_pairwise <;>
          by_cases hpos : code > 0 <;> rcases hlog with rfl | rfl <;>
          simp [hpos, Effect.isPost, Effect.isFbReturn]
      · apply allBefore_of_pairwise <;>
          by_cases hpos : code > 0 <;> rcases hlog with rfl | rfl <;>
          simp [hpos, Effect.isGetString, Effect.isFbReturn]
      · apply allBefore_of_pairwise <;>
          by_cases hpos : code > 0 <;> rcases hlog with rfl | rfl <;>
          simp [hpos, Effect.isTeardown, Effect.isFbReturn]
      · simp
      · simp

/-- Witness for C5: a run with a frame, a session and the answer 200 "A"
issues a POST and orders the release as stated. -/
theorem captureAndSend_release_order_witness :
    allBefore Effect.isFbReturn Effect.isGetString
      (captureAndSend ⟨some ⟨[255, 216], 2⟩, true, 200, ['A']⟩).2 :=
  (captureAndSend_release_order ⟨some ⟨[255, 216], 2⟩, true, 200, ['A']⟩
    ⟨Effect.post [255, 216] 2, by decide, rfl⟩).2.2.1

/-- C6: in every run of `captureAndSend` in which `esp_camera_fb_get` gives no
frame, the result is `ACTION_ERROR` and the calls made contain no
`http.begin`, no `http.addHeader`, no `http.POST` and no `http.getString`. -/
theorem captureAndSend_capture_failure (w : World) (hfb : w.fb = none) :
    (captureAndSend w).1 = ActionResult.ACTION_ERROR ∧
    ∀ e ∈ (captureAndSend w).2,
      e.isHttpBegin = false ∧ e.isAddHeader = false ∧ e.isPost = false ∧
      e.isGetString = false := by
  obtain ⟨fb, ok, code, body⟩ := w
  simp only at hfb
  subst hfb
  simp [captureAndSend_capture_failed, Effect.isHttpBegin, Effect.isAddHeader,
    Effect.isPost, Effect.isGetString]

/-- Witness for C6: a world whose camera gives no frame. -/
theorem captureAndSend_capture_failure_witness :
    (captureAndSend ⟨none, true, 200, ['A']⟩).1 = ActionResult.ACTION_ERROR :=
  (captureAndSend_capture_failure ⟨none, true, 200, ['A']⟩ rfl).1

/-- C7: every run of `captureAndSend` issues at most one POST; one is issued
exactly when capture and session start both succeed, and then the calls up to
and including it are: the frame acquisition, `setReuse(false)`, the two
timeouts, `http.begin` with the configured URL, the header
`Content-Type: image/jpeg`, the header `Connection: close`, and the POST of
the buffer and length of the acquired frame; no header is added later. -/
theorem captureAndSend_single_post (w : World) :
    (captureAndSend w).2.countP Effect.isPost ≤ 1 ∧
    ((∃ e ∈ (captureAndSend w).2, e.isPost = true) ↔
      (w.fb.isSome = true ∧ w.beginOk = true)) ∧
    ∀ fb, w.fb = some fb → w.beginOk = true →
      ∃ rest,
        (captureAndSend w).2 =
          [Effect.fbGet, Effect.setReuse false, Effect.setConnectTimeout 15000,
           Effect.setTimeout 60000, Effect.httpBegin "http://192.168.0.179:8080/upload",
           Effect.addHeader "Content-Type" "image/jpeg",
           Effect.addHeader "Connection" "close",
           Effect.post fb.buf fb.len] ++ rest ∧
        ∀ e ∈ rest, e.isPost = false ∧ e.isAddHeader = false ∧ e.isHttpBegin = false := by
  obtain ⟨fb, ok, code, body⟩ := w
  cases fb with
  | none => simp [captureAndSend_capture_failed, Effect.isPost]
  | some fb =>
    cases ok with
    | false => simp [captureAndSend_begin_failed, Effect.isPost]
    | true =>
      obtain ⟨log, hlog, ht⟩ := captureAndSend_trace fb code body
      rw [ht]
      refine ⟨?_, ?_, ?_⟩
      · by_cases hpos : code > 0 <;> rcases hlog with rfl | rfl <;>
          simp [hpos, Effect.isPost, List.countP_cons]
      · simp [Effect.isPost]
      · intro fb2 hfb _
        simp only [Option.some.injEq] at hfb
        subst hfb
        refine ⟨[Effect.fbReturn fb] ++ (if code > 0 then [Effect.getString] else []) ++
            [Effect.errorToString code, Effect.serialPrintf "HTTP %d (%s) body='%s'\n",
             Effect.httpEnd, Effect.clientStop] ++ log, ?_, ?_⟩
        · simp [url]
        · by_cases hpos : code > 0 <;> rcases hlog with rfl | rfl <;>
            simp [hpos, Effect.isPost, Effect.isAddHeader, Effect.isHttpBegin]

/-- Witness for C7: a run with a frame and a session posts that frame. -/
theorem captureAndSend_single_post_witness :
    ∃ rest,
      (captureAndSend ⟨some ⟨[255, 216], 2⟩, true, 200, ['A']⟩).2 =
        [Effect.fbGet, Effect.setReuse false, Effect.setConnectTimeout 15000,
         Effect.setTimeout 60000, Effect.httpBegin "http://192.168.0.179:8080/upload",
         Effect.addHeader "Content-Type" "image/jpeg",
         Effect.addHeader "Connection" "close",
         Effect.post [255, 216] 2] ++ rest ∧
      ∀ e ∈ rest, e.isPost = false ∧ e.isAddHeader = false ∧ e.isHttpBegin = false :=
  (captureAndSend_single_post ⟨some ⟨[255, 216], 2⟩, true, 200, ['A']⟩).2.2
    ⟨[255, 216], 2⟩ rfl rfl

/-! ### Claims about `buttonPressed` -/

/-- C8: for every sequence of sampled values, starting from the remembered
level `HIGH`, the k-th call of `buttonPressed` returns `true` exactly when the
k-th sample is `LOW` and the previous sample (`HIGH` for the first call) is
`HIGH`; hence, when every sample is a level, in a run of consecutive `LOW`
samples that starts the sequence or follows a sample that is not `LOW`, the
first call returns `true` and every later call of the run returns `false`. -/
theorem buttonPressed_edge_triggered (samples : List Int) :
    (buttonPressedCalls samples HIGH).length = samples.length ∧
    (∀ k, k < samples.length →
      ((buttonPressedCalls samples HIGH).getD k false = true ↔
        samples.getD k HIGH = LOW ∧
          (if k = 0 then HIGH else samples.getD (k - 1) HIGH) = HIGH)) ∧
    ((∀ s ∈ samples, s = HIGH ∨ s = LOW) →
      ∀ i j, i < j → j ≤ samples.length →
        (∀ k, i ≤ k → k < j → samples.getD k HIGH = LOW) →
        (i = 0 ∨ samples.getD (i - 1) HIGH ≠ LOW) →
        (buttonPressedCalls samples HIGH).getD i false = true ∧
        ∀ k, i < k → k < j → (buttonPressedCalls samples HIGH).getD k false = false) := by
  refine ⟨buttonPressedCalls_length samples HIGH, buttonPressedCalls_getD samples HIGH, ?_⟩
  intro hlev i j hij hj hrun hmax
  constructor
  · rw [buttonPressedCalls_getD samples HIGH i (by omega)]
    refine ⟨hrun i le_rfl hij, ?_⟩
    rcases hmax with h0 | hprev
    · simp [h0]
    · have hi0 : i ≠ 0 := by
        intro h0
        subst h0
        exact hprev (hrun 0 le_rfl hij)
      simp only [hi0, if_false]
      have hlt : i - 1 < samples.length := by omega
      have hmem : samples.getD (i - 1) HIGH ∈ samples := by
        rw [List.getD_eq_getElem samples HIGH hlt]
        exact List.getElem_mem hlt
      rcases hlev _ hmem with h | h
      · exact h
      · exact absurd h hprev
  · intro k hik hkj
    rw [← Bool.not_eq_true, buttonPressedCalls_getD samples HIGH k (by omega)]
    rintro ⟨_, hp⟩
    have hk0 : k ≠ 0 := by omega
    simp only [hk0, if_false] at hp
    have hl := hrun (k - 1) (by omega) (by omega)
    rw [hl] at hp
    exact absurd hp (by decide)

/-- Witness for C8: the samples HIGH, LOW, LOW, LOW, HIGH, LOW give one event
for the press held over three samples. -/
theorem buttonPressed_edge_triggered_witness :
    (buttonPressedCalls [HIGH, LOW, LOW, LOW, HIGH, LOW] HIGH).getD 1 false = true ∧
    ∀ k, 1 < k → k < 4 →
      (buttonPressedCalls [HIGH, LOW, LOW, LOW, HIGH, LOW] HIGH).getD k false = false :=
  (buttonPressed_edge_triggered [HIGH, LOW, LOW, LOW, HIGH, LOW]).2.2
    (by decide) 1 4 (by decide) (by decide)
    (by intro k h1 h2; interval_cases k <;> decide)
    (Or.inr (by decide))

/-- C9 (as stated, refuted): a clean press from 100 ms to 300 ms, with the
signal `HIGH` before, is reported by no call when the schedule samples at 0 ms
and at 400 ms only; and the second of two clean presses, with the signal
`HIGH` from 300 ms until it begins at 1000 ms, is reported by no call when the
schedule samples at 150 ms and next at 1100 ms, although that call samples the
pin during the press. -/
theorem buttonPressed_press_unreported :
    ((∀ t, t < 100 → onePressSignal t = HIGH) ∧
     (∀ t, 100 + 0 ≤ t → t < 300 → onePressSignal t = LOW) ∧
     pressEvents (pollButton onePressSignal [0, 400] bootState) 100 300 = 0) ∧
    ((∀ t, 300 ≤ t → t < 1000 → twoPressSignal t = HIGH) ∧
     (∀ t, 1000 + 0 ≤ t → t < 1300 → twoPressSignal t = LOW) ∧
     pollButton twoPressSignal [150, 900] bootState = [(150, true), (1100, false)] ∧
     pressEvents (pollButton twoPressSignal [150, 900] bootState) 1000 1300 = 0) := by
  refine ⟨⟨?_, ?_, by decide⟩, ⟨?_, ?_, by decide, by decide⟩⟩
  · intro t h
    have : ¬ (100 ≤ t ∧ t < 300) := by omega
    simp [onePressSignal, this]
  · intro t h1 h2
    have : 100 ≤ t ∧ t < 300 := by omega
    simp [onePressSignal, this]
  · intro t h1 h2
    have : ¬ ((100 ≤ t ∧ t < 300) ∨ (1000 ≤ t ∧ t < 1300)) := by omega
    simp [twoPressSignal, this]
  · intro t h1 h2
    have : (100 ≤ t ∧ t < 300) ∨ (1000 ≤ t ∧ t < 1300) := by omega
    simp [twoPressSignal, this]

/-- C9 (amended): for every input signal that, after a bounce interval of at
most 50 ms from the begin `t0` of a press, stays `LOW` until the press ends at
`t1`, and for every schedule of `buttonPressed` calls (a call that reports a
press blocks for 50 ms before the next sample), at most one call that samples
the pin during the press returns `true`; and exactly one does when moreover
the remembered level is `HIGH`, the signal is `HIGH` from the current time
until the press begins and a level during the bounce, and some call samples
the pin `LOW` during the press. -/
theorem buttonPressed_debounce (signal : Nat → Int) (t0 b t1 : Nat) (gaps : List Nat)
    (st : ButtonState) (hb : b ≤ 50)
    (hlow : ∀ t, t0 + b ≤ t → t < t1 → signal t = LOW) :
    pressEvents (pollButton signal gaps st) t0 t1 ≤ 1 ∧
    (st.lastButtonState = HIGH →
      (∀ t, st.clock ≤ t → t < t0 → signal t = HIGH) →
      (∀ t, t0 ≤ t → t < t0 + b → signal t = HIGH ∨ signal t = LOW) →
      (∃ c ∈ pollButton signal gaps st, t0 ≤ c.1 ∧ c.1 < t1 ∧ signal c.1 = LOW) →
      pressEvents (pollButton signal gaps st) t0 t1 = 1) :=
  ⟨pressEvents_le_one signal t0 b t1 hb hlow gaps st,
   fun hlast hpre hlev hex => pressEvents_eq_one signal t0 b t1 hb hlow hlev gaps st hlast hpre hex⟩

/-- Witness for C9 (amended): a press that bounces for 30 ms, polled at 99,
101, 102, 157, 257 and 657 ms, is reported exactly once. -/
theorem buttonPressed_debounce_witness :
    pressEvents (pollButton bounceSignal [99, 2, 1, 5, 100, 400] bootState) 100 500 = 1 :=
  (buttonPressed_debounce bounceSignal 100 30 500 [99, 2, 1, 5, 100, 400] bootState
    (by decide)
    (by
      intro t h1 h2
      have a : ¬ t < 100 := by omega
      have c : ¬ t < 130 := by omega
      simp [bounceSignal, a, c, h2])).2
    rfl
    (by
      intro t _ h2
      simp [bounceSignal, h2])
    (by
      intro t h1 h2
      have a : ¬ t < 100 := by omega
      have c : t < 130 := by omega
      simp only [bounceSignal, a, c, if_false, if_true]
      split
      · exact Or.inr rfl
      · exact Or.inl rfl)
    ⟨(157, false), by decide, by decide, by decide, by decide⟩

/-! ### Claims about `vibratePulses` -/

/-- C10: for every integer `count`, the calls of `vibratePulses(count)` are
max(count, 0) repetitions of (write HIGH, wait 200 ms, write LOW, wait 200 ms)
on the actuator pin; it makes no call when `count` is zero or negative, it
spends 400 * max(count, 0) ms in `delay`, and whenever `count` is at least 1
the last level written is `LOW`. -/
theorem vibratePulses_cycles (count : Int) :
    vibratePulses count =
      (List.replicate (max count 0).toNat
        [PinEffect.digitalWrite BUZZER_PIN HIGH, PinEffect.delay 200,
         PinEffect.digitalWrite BUZZER_PIN LOW, PinEffect.delay 200]).flatten ∧
    (count ≤ 0 → vibratePulses count = []) ∧
    totalDelay (vibratePulses count) = 400 * (max count 0).toNat ∧
    (1 ≤ count → (levelsWritten (vibratePulses count)).getLast? = some LOW) := by
  have hrep : vibratePulses count = (List.replicate (max count 0).toNat pulseCycle).flatten :=
    vibrateLoop_eq_replicate count (max count 0).toNat 0 (by
      rcases le_total count 0 with h | h
      · rw [max_eq_right h]; simp; omega
      · rw [max_eq_left h]; simp)
  refine ⟨hrep, ?_, ?_, ?_⟩
  · intro h
    rw [hrep, max_eq_right h]
    rfl
  · rw [hrep, totalDelay_cycles]
  · intro h
    rw [hrep]
    obtain ⟨n, hn⟩ : ∃ n, (max count 0).toNat = n + 1 :=
      ⟨(max count 0).toNat - 1, by
        rw [max_eq_left (by omega)]
        omega⟩
    rw [hn]
    exact levelsWritten_cycles_getLast n

/-- Witness for C10: three pulses end with the motor off. -/
theorem vibratePulses_cycles_witness :
    (levelsWritten (vibratePulses 3)).getLast? = some LOW :=
  (vibratePulses_cycles 3).2.2.2 (by decide)

end ESP32
